import Mathlib

/-!
Shallow embedding of the CZDB reader from `github.com/sjzar/ips`
(`format/czdb/sdk`): byte-level data model, two-level binary search,
record decoding, and the lazy-initialization lifecycle.

Bytes are modelled as `List Nat` (each entry a Go `byte`, `< 256` holds
for every list produced from a real file; theorems that need the bound
carry it as a hypothesis).  Go slice expressions `s[a:b]` panic when the
bounds exceed the slice; such reads are modelled as `Option`-valued
(`none` = runtime panic).  Go loops are modelled by structural recursion
on a fuel argument whose initial value bounds the iteration count of the
original loop (each binary-search step shrinks the bracket by at least
one, so `h - l + 1` steps always suffice; when fuel reaches zero the
bracket is already empty and the returned value coincides with the
loop's normal exit).
-/

namespace CzdbSdk

/-- Error kinds of the reader, per `pkg/errors` and §7 of the format
description: `keyRequired` for a missing key, `invalidKey` for a key
that is not decodable base64, `invalidDatabase` for structural
violations, `decodeError` for msgpack decode failures. -/
inductive Err where
  | invalidDatabase
  | keyRequired
  | invalidKey
  | decodeError
deriving DecidableEq

/-- A Go byte string (`[]byte`). -/
abbrev Bytes := List Nat

/-- Models Go `bytes.Compare`: lexicographic comparison where a proper
prefix is smaller. -/
def bytesCompare : Bytes → Bytes → Ordering
  | [], [] => .eq
  | [], _ :: _ => .lt
  | _ :: _, [] => .gt
  | a :: as, b :: bs =>
    if a < b then .lt else if b < a then .gt else bytesCompare as bs

/-- Models the Go slice expression `d[a:b]`: defined only when
`a ≤ b ≤ len(d)`, otherwise the program panics (`none`). -/
def goSlice (d : Bytes) (a b : Nat) : Option Bytes :=
  if a ≤ b ∧ b ≤ d.length then some ((d.drop a).take (b - a)) else none

/-- Little-endian 32-bit read of the first four bytes of a list, as in
`binary.LittleEndian.Uint32`.  Callers guard the length. -/
def le32 : Bytes → Nat
  | b0 :: b1 :: b2 :: b3 :: _ => b0 + 256 * b1 + 65536 * b2 + 16777216 * b3
  | _ => 0

/-- Models `binary.LittleEndian.Uint32(d[i:])`: panics unless at least
four bytes are available at offset `i`. -/
def readU32 (d : Bytes) (i : Nat) : Option Nat :=
  (goSlice d i (i + 4)).map le32

/-- The 12-byte IPv4-in-IPv6 pad `0,…,0,0xff,0xff` used by Go `net` for
4-byte addresses stored in 16-byte form. -/
def v4InV6Pad : Bytes := [0, 0, 0, 0, 0, 0, 0, 0, 0, 0, 255, 255]

/-- Go `net.IPv4zero` (the 16-byte representation of `0.0.0.0`). -/
def ipv4zeroGo : Bytes := v4InV6Pad ++ [0, 0, 0, 0]

/-- Go `net.IPv6zero` (`::`, sixteen zero bytes). -/
def ipv6zeroGo : Bytes := List.replicate 16 0

/-- Modelled from the spec: `ipnet.LastIPv4` (not under `src/`) already
converted by `To16()`; scenario S3 of the spec gives its mapped form
`::ffff:ffff:ffff`, i.e. `255.255.255.255` in 16-byte form. -/
def lastIPv4Go : Bytes := v4InV6Pad ++ [255, 255, 255, 255]

/-- Models Go `net.IP.To4`: keeps a 4-byte address, strips the
IPv4-in-IPv6 pad from a mapped 16-byte address, and yields `nil`
(modelled as `[]`) otherwise. -/
def to4 (ip : Bytes) : Bytes :=
  if ip.length = 4 then ip
  else if ip.length = 16 ∧ ip.take 12 = v4InV6Pad then ip.drop 12
  else []

/-- Models Go `net.IP.To16`: pads a 4-byte address with the
IPv4-in-IPv6 pad, keeps a 16-byte address, yields `nil` otherwise. -/
def to16 (ip : Bytes) : Bytes :=
  if ip.length = 4 then v4InV6Pad ++ ip
  else if ip.length = 16 then ip
  else []

/-- Models Go `net.IP.Equal`: bytewise equality at equal widths, and
4-versus-16 equality through the IPv4-in-IPv6 pad. -/
def goIPEqual (a b : Bytes) : Bool :=
  if a.length = b.length then a == b
  else if a.length = 4 ∧ b.length = 16 then b.take 12 == v4InV6Pad && a == b.drop 12
  else if a.length = 16 ∧ b.length = 4 then a.take 12 == v4InV6Pad && b == a.drop 12
  else false

/-- The `TempDataNotFound` sentinel from `const.go`. -/
def tempDataNotFound : String := "DataNotFound"

/-- The state of a `Geo` value after `loadGeoSetting`: the decrypted
dictionary buffer and the column-selection bitmap
(`int(binary.LittleEndian.Uint32(...))`, hence non-negative). -/
structure GeoCtx where
  data : Bytes
  colSel : Nat
deriving DecidableEq

/-- The fold of `ParseGeoInfo`'s column loop, accumulating from column
index `i` over the decoded string array: a column `i` is emitted when
bit `i+1` of the selection bitmap is set, with `"null"` substituted for
the empty string and a TAB appended. -/
def geoInfoFoldAux (sel : Nat) : Nat → List String → String
  | _, [] => ""
  | i, c :: rest =>
    (if (sel >>> (i + 1)) &&& 1 = 1 then (if c = "" then "null" else c) ++ "\t" else "")
      ++ geoInfoFoldAux sel (i + 1) rest

/-- Models `Geo.ParseGeoInfo` from `const.go`.  The two msgpack decode
stages are parameters: `decMix` decodes the leading int64
(`geo_pos_mix_size`) together with the `other_data` string from the
record payload, and `decCols` decodes the array of column strings from
a dictionary slice (both stand for the external
`vmihailenco/msgpack` decoder, returning `decodeError` on failure).
The shift/mask bit-manipulation on the signed 64-bit mix value is
rendered with `Int.fdiv`/`Int.emod` (arithmetic shift right and
two's-complement masking). -/
def parseGeoInfo (decMix : Bytes → Except Err (Int × String))
    (decCols : Bytes → Except Err (List String))
    (g : GeoCtx) (payload : Bytes) : Except Err String :=
  match decMix payload with
  | .error e => .error e
  | .ok (mix, otherData) =>
    if mix = 0 then .ok otherData
    else
      let dataLen : Nat := ((mix.fdiv (2 ^ 24)).emod 256).toNat
      let dataPtr : Nat := (mix.emod (2 ^ 24)).toNat
      if g.data.length < dataPtr + dataLen then .error .invalidDatabase
      else
        match decCols ((g.data.drop dataPtr).take dataLen) with
        | .error e => .error e
        | .ok cols => .ok (geoInfoFoldAux g.colSel 0 cols ++ "\t" ++ otherData)

/-- The reader's state after a successful `Init`: the file image, the
cached base offset of the Super Part, the indexing parameters derived
from `db_type`, the header-block cache and the geo dictionary. -/
structure ReaderInited where
  data : Bytes
  offset : Nat
  dbType : Nat
  ipLength : Nat
  indexBlockLength : Nat
  headerIPs : List Bytes
  headerPtrs : List Nat
  geo : GeoCtx
deriving DecidableEq

/-- The binary-search loop of `searchHeader`.  Returns the bracket
`(l, h)` at loop exit together with `some (sptr, eptr, m)` when the
loop broke on an equal match at position `m` (recorded for the
theorems; the Go loop assigns `sptr`/`eptr` at the break).  All array
accesses of the Go loop stay within `[0, headerLen)`, so `getD` is
exact. -/
def searchHeaderLoop (ips : List Bytes) (ptrs : List Nat) (ip : Bytes) :
    Nat → Int → Int → Int × Int × Option (Nat × Nat × Nat)
  | 0, l, h => (l, h, none)
  | fuel + 1, l, h =>
    if l ≤ h then
      let m := ((l + h) / 2).toNat
      match bytesCompare ip (ips.getD m []) with
      | .lt => searchHeaderLoop ips ptrs ip fuel l ((m : Int) - 1)
      | .gt => searchHeaderLoop ips ptrs ip fuel ((m : Int) + 1) h
      | .eq =>
        (l, h, some (if m > 0 then ptrs.getD (m - 1) 0 else ptrs.getD m 0, ptrs.getD m 0, m))
    else (l, h, none)

/-- Models `Reader.searchHeader`: level-1 binary search over the header
blocks, including the post-loop bracket adjustment. -/
def searchHeader (r : ReaderInited) (ip : Bytes) : Nat × Nat :=
  let n := r.headerIPs.length
  if n = 0 then (0, 0)
  else
    let res := searchHeaderLoop r.headerIPs r.headerPtrs ip n 0 ((n : Int) - 1)
    let l := res.1
    let h := res.2.1
    if l = 0 ∧ h ≤ 0 then (0, 0)
    else if l > h then
      if l < (n : Int) then
        (r.headerPtrs.getD (l - 1).toNat 0, r.headerPtrs.getD l.toNat 0)
      else if h ≥ 0 ∧ h + 1 < (n : Int) then
        (r.headerPtrs.getD h.toNat 0, r.headerPtrs.getD (h + 1).toNat 0)
      else
        (r.headerPtrs.getD (n - 1) 0, r.headerPtrs.getD (n - 1) 0 + r.indexBlockLength)
    else
      match res.2.2 with
      | some (s, e, _) => (s, e)
      | none => (0, 0)

/-- The binary-search loop of `searchIndex`.  Each iteration reads the
`start_ip`/`end_ip` fields of index block `m` from the raw image (a Go
slice expression: `none` = panic when it exceeds the image); on a hit
it additionally reads `data_ptr` (4 bytes) and `data_length` (1 byte).
A normal exit returns the zero-filled miss tuple, exactly like the Go
function's zero-initialised `sip`/`eip`/`dataPtr`/`dataLen`. -/
def searchIndexLoop (d : Bytes) (off ipLen ibl sptr : Nat) (ip : Bytes) :
    Nat → Int → Int → Option (Bytes × Bytes × Nat × Nat)
  | 0, _, _ => some (List.replicate ipLen 0, List.replicate ipLen 0, 0, 0)
  | fuel + 1, l, h =>
    if l ≤ h then
      let m := ((l + h) / 2).toNat
      let p := sptr + m * ibl
      match goSlice d (off + p) (off + p + ipLen),
            goSlice d (off + p + ipLen) (off + p + 2 * ipLen) with
      | some sB, some eB =>
        if bytesCompare ip sB ≠ .lt ∧ bytesCompare ip eB ≠ .gt then
          match readU32 d (off + p + 2 * ipLen), d.get? (off + p + 2 * ipLen + 4) with
          | some dp, some dl => some (sB, eB, dp, dl)
          | _, _ => none
        else if bytesCompare ip sB = .lt then
          searchIndexLoop d off ipLen ibl sptr ip fuel l ((m : Int) - 1)
        else
          searchIndexLoop d off ipLen ibl sptr ip fuel ((m : Int) + 1) h
      | _, _ => none
    else some (List.replicate ipLen 0, List.replicate ipLen 0, 0, 0)

/-- Models `Reader.searchIndex`: level-2 binary search over the index
blocks in `[sptr, eptr]`.  The initial upper bound is the Go
truncated-division `(eptr-sptr)/indexBlockLength` (division by zero
would panic in Go, hence the guard). -/
def searchIndex (r : ReaderInited) (sptr eptr : Nat) (ip : Bytes) :
    Option (Bytes × Bytes × Nat × Nat) :=
  if r.indexBlockLength = 0 then none
  else
    let h0 : Int := ((eptr : Int) - (sptr : Int)).tdiv (r.indexBlockLength : Int)
    searchIndexLoop r.data r.offset r.ipLength r.indexBlockLength sptr ip (h0 + 1).toNat 0 h0

/-- The IP normalization at the top of `Find`: `To4` for an IPv4
database (`dbType == 0x0`), `To16` otherwise. -/
def normalizeIP (r : ReaderInited) (ip0 : Bytes) : Bytes :=
  if r.dbType = 0 then to4 ip0 else to16 ip0

/-- The result of a successful `Find`: the `ipnet.Range` bytes and the
decoded text. -/
structure FindRes where
  startIP : Bytes
  endIP : Bytes
  text : String
deriving DecidableEq

/-- Models `Reader.Find` on an initialized reader (the lazy-init
wrapper is modelled separately): normalization, the two-level search,
the two synthesized `DataNotFound` special cases, and record decoding.
`none` models a Go runtime panic on an out-of-bounds read. -/
def find (decMix : Bytes → Except Err (Int × String))
    (decCols : Bytes → Except Err (List String))
    (r : ReaderInited) (ip0 : Bytes) : Option (Except Err FindRes) :=
  let ip := normalizeIP r ip0
  let se := searchHeader r ip
  if se.1 = 0 then
    if goIPEqual ip ipv4zeroGo || goIPEqual ip ipv6zeroGo then
      some (.ok ⟨ip, ip, tempDataNotFound⟩)
    else some (.error .invalidDatabase)
  else
    match searchIndex r se.1 se.2 ip with
    | none => none
    | some (sip, eip, dataPtr, dataLen) =>
      if dataPtr = 0 then
        if r.dbType = 1 && goIPEqual ip ipv4zeroGo then
          some (.ok ⟨ipv4zeroGo, lastIPv4Go, tempDataNotFound⟩)
        else some (.error .invalidDatabase)
      else
        match goSlice r.data (r.offset + dataPtr) (r.offset + dataPtr + dataLen) with
        | none => none
        | some payload =>
          match parseGeoInfo decMix decCols r.geo payload with
          | .error e => .some (.error e)
          | .ok txt => some (.ok ⟨sip, eip, txt⟩)

/-- Value of one base64 alphabet character, per Go
`encoding/base64.StdEncoding`. -/
def b64Val (c : Char) : Option Nat :=
  if 'A' ≤ c ∧ c ≤ 'Z' then some (c.toNat - 65)
  else if 'a' ≤ c ∧ c ≤ 'z' then some (c.toNat - 97 + 26)
  else if '0' ≤ c ∧ c ≤ '9' then some (c.toNat - 48 + 52)
  else if c = '+' then some 62
  else if c = '/' then some 63
  else none

/-- Decodes base64 four-character quanta, with `=` padding allowed only
at the very end, as in Go `encoding/base64.StdEncoding` (non-strict:
trailing bits are not checked). -/
def b64Quanta : List Char → Option (List Nat)
  | [] => some []
  | c1 :: c2 :: c3 :: c4 :: rest =>
    match b64Val c1, b64Val c2 with
    | some v1, some v2 =>
      if c3 = '=' ∧ c4 = '=' ∧ rest = [] then some [v1 <<< 2 + v2 >>> 4]
      else
        match b64Val c3 with
        | some v3 =>
          if c4 = '=' ∧ rest = [] then
            some [v1 <<< 2 + v2 >>> 4, (v2 % 16) <<< 4 + v3 >>> 2]
          else
            match b64Val c4 with
            | some v4 =>
              (b64Quanta rest).map
                (fun tl =>
                  (v1 <<< 2 + v2 >>> 4) :: ((v2 % 16) <<< 4 + v3 >>> 2) ::
                    ((v3 % 4) <<< 6 + v4) :: tl)
            | none => none
        | none => none
    | _, _ => none
  | _ => none

/-- Models Go `base64.StdEncoding.DecodeString`: carriage returns and
newlines are ignored, everything else must form valid padded quanta
(`none` = the decode error Go reports). -/
def decodeBase64 (s : String) : Option (List Nat) :=
  b64Quanta (s.toList.filter (fun c => c ≠ '\r' ∧ c ≠ '\n'))

/-- Models `Reader.validateKey`: an empty key is `ErrKeyRequired`; a
key that fails base64 decoding yields the decode error (the spec's
`InvalidKey` kind). -/
def validateKey (key : String) : Except Err Unit :=
  if key = "" then .error .keyRequired
  else
    match decodeBase64 key with
    | none => .error .invalidKey
    | some _ => .ok ()

/-- ECB block iteration: applies the per-block decryption `dec` to each
16-byte chunk.  Fuel-based structural recursion; `ct.length` fuel
always suffices. -/
def ecbBlocks (dec : Bytes → Bytes) : Nat → Bytes → Bytes
  | 0, _ => []
  | _, [] => []
  | fuel + 1, ct => dec (ct.take 16) ++ ecbBlocks dec fuel (ct.drop 16)

/-- Modelled from the spec: `AesECBDecrypt` is repository code not
under `src/`.  Per §4.2 the key must have a legal AES width (16/24/32
bytes) and the ciphertext length must be a positive multiple of 16,
else `InvalidDatabase`; each block is decrypted independently by the
cipher (abstracted as the parameter `dec`, an arbitrary block map since
the spec does not pin the permutation) and standard block padding (last
byte = pad count, 1..16) is stripped, bad padding giving
`InvalidDatabase`. -/
def aesECBDecrypt (dec : Bytes → Bytes) (ct kb : Bytes) : Except Err Bytes :=
  if ¬(kb.length = 16 ∨ kb.length = 24 ∨ kb.length = 32) then .error .invalidDatabase
  else if ct.length = 0 ∨ ct.length % 16 ≠ 0 then .error .invalidDatabase
  else
    let pt := ecbBlocks dec ct.length ct
    match pt.getLast? with
    | none => .error .invalidDatabase
    | some pad =>
      if 1 ≤ pad ∧ pad ≤ 16 ∧ pad ≤ pt.length then .ok (pt.take (pt.length - pad))
      else .error .invalidDatabase

/-- The decrypted metadata fields of `decryptHyperHeader`:
`decClientID = LE32(pt[:4]) >> 20`,
`decExpirationDate = LE32(pt[:4]) & 0xFFFFF`,
`decRandomBytesLength = LE32(pt[4:8])`. -/
structure HyperDec where
  cid : Nat
  exp : Nat
  randLen : Nat
deriving DecidableEq

/-- The field extraction of `decryptHyperHeader` from the decrypted
8-byte plaintext. -/
def hyperFields (pt : Bytes) : HyperDec :=
  ⟨le32 pt >>> 20, le32 pt &&& 0xFFFFF, le32 (pt.drop 4)⟩

/-- Models `Reader.decryptHyperHeader`: decodes the key, slices the
ciphertext at `[12, 12+encLen)`, ECB-decrypts it, extracts the
metadata fields and computes the Super Part base offset
`12 + encLen + randomBytesLength`.  `none` models the panic when the
plaintext is shorter than the 8 bytes the Go code slices. -/
def decryptHyperHeader (dec : Bytes → Bytes) (key : String) (d : Bytes) (encLen : Nat) :
    Option (Except Err (HyperDec × Nat)) :=
  match decodeBase64 key with
  | none => some (.error .invalidKey)
  | some kb =>
    match goSlice d 12 (12 + encLen) with
    | none => none
    | some ct =>
      match aesECBDecrypt dec ct kb with
      | .error e => some (.error e)
      | .ok pt =>
        if pt.length < 8 then none
        else some (.ok (hyperFields pt, 12 + encLen + (hyperFields pt).randLen))

/-- The Super Part fields parsed by `parseSuperPart`. -/
structure SuperPart where
  dbType : Nat
  fileSize : Nat
  firstIndexPtr : Nat
  totalHeaderBlockSize : Nat
  lastIndexPtr : Nat
deriving DecidableEq

/-- Models `Reader.parseSuperPart`: slices 17 bytes at the base offset
(panic when out of bounds — the Go code has no check) and decodes the
five fields. -/
def parseSuperPart (d : Bytes) (off : Nat) : Option SuperPart :=
  match goSlice d off (off + 17) with
  | none => none
  | some sp =>
    some ⟨sp.getD 0 0, le32 (sp.drop 1), le32 (sp.drop 5), le32 (sp.drop 9), le32 (sp.drop 13)⟩

/-- Models `Reader.setupIPVersion`: bit 0 of `db_type` selects the
address width and the index-block width. -/
def setupIPVersion (dbType : Nat) : Nat × Nat :=
  if dbType &&& 1 = 0 then (4, 13) else (16, 37)

/-- The loop of `parseHeaderBlocks`: strides 20 bytes through the
header-block region, reads each entry's `index_ptr` (panic when the
read exceeds the image), stops at a zero pointer, and records the
16-byte `start_ip` slice.  Writing at `idx` panics when `idx` reaches
`cap = totalHeaderBlockSize/20`, the length Go allocated. -/
def parseHeaderBlocksLoop (d : Bytes) (off tbs cap : Nat) :
    Nat → Nat → Nat → List Bytes → List Nat → Option (List Bytes × List Nat)
  | 0, _, _, accIPs, accPtrs => some (accIPs, accPtrs)
  | fuel + 1, i, idx, accIPs, accPtrs =>
    if i < tbs then
      match readU32 d (off + 17 + i + 16) with
      | none => none
      | some ptr =>
        if ptr = 0 then some (accIPs, accPtrs)
        else
          match goSlice d (off + 17 + i) (off + 17 + i + 16) with
          | none => none
          | some ipb =>
            if idx < cap then
              parseHeaderBlocksLoop d off tbs cap fuel (i + 20) (idx + 1)
                (accIPs ++ [ipb]) (accPtrs ++ [ptr])
            else none
    else some (accIPs, accPtrs)

/-- Models `Reader.parseHeaderBlocks`; the returned lists are the
filled prefix of the header cache (its length is the `headerLen` the Go
code stores). -/
def parseHeaderBlocks (d : Bytes) (off tbs : Nat) : Option (List Bytes × List Nat) :=
  parseHeaderBlocksLoop d off tbs (tbs / 20) (tbs / 20 + 1) 0 0 [] []

/-- Modelled from the spec: `XorDecrypt` is repository code not under
`src/` — a repeating-pad XOR of the key bytes over the data (§4.2).
An empty key with non-empty data would be an `i % 0` division panic in
Go. -/
def xorDecrypt (d kb : Bytes) : Option Bytes :=
  if d = [] then some []
  else if kb = [] then none
  else some (d.enum.map (fun p => p.2 ^^^ kb.getD (p.1 % kb.length) 0))

/-- Models `Reader.loadGeoSetting`: reads the column-selection word
just past the last index block, and when non-zero reads the dictionary
length and XOR-decrypts the dictionary bytes with the decoded key.
All reads are unchecked Go slices (`none` = panic). -/
def loadGeoSetting (d : Bytes) (off lastIndexPtr ibl : Nat) (key : String) :
    Option (Except Err GeoCtx) :=
  match decodeBase64 key with
  | none => some (.error .invalidKey)
  | some kb =>
    let base := off + lastIndexPtr + ibl
    match goSlice d base (base + 4) with
    | none => none
    | some csB =>
      let colSel := le32 csB
      if colSel = 0 then some (.ok ⟨[], 0⟩)
      else
        match goSlice d (base + 4) (base + 8) with
        | none => none
        | some glB =>
          match goSlice d (base + 8) (base + 8 + le32 glB) with
          | none => none
          | some raw =>
            match xorDecrypt raw kb with
            | none => none
            | some geoData => some (.ok ⟨geoData, colSel⟩)

/-- Models `Reader.Init`: key validation, hyper-header decryption,
super-part parsing, header-block parsing and geo-setting load, in that
order.  `none` models a Go panic on an unchecked out-of-bounds read
inside any step. -/
def initReader (dec : Bytes → Bytes) (key : String) (d : Bytes) (encLen : Nat) :
    Option (Except Err ReaderInited) :=
  match validateKey key with
  | .error e => some (.error e)
  | .ok _ =>
    match decryptHyperHeader dec key d encLen with
    | none => none
    | some (.error e) => some (.error e)
    | some (.ok (_, off)) =>
      match parseSuperPart d off with
      | none => none
      | some sp =>
        let iv := setupIPVersion sp.dbType
        match parseHeaderBlocks d off sp.totalHeaderBlockSize with
        | none => none
        | some hb =>
          match loadGeoSetting d off sp.lastIndexPtr iv.2 key with
          | none => none
          | some (.error e) => some (.error e)
          | some (.ok geo) =>
            some (.ok ⟨d, off, sp.dbType, iv.1, iv.2, hb.1, hb.2, geo⟩)

/-- The mutable reader state around the lazy-init latch: the key, the
file image, the cached `encryptedDataLength` from `NewReader`, the
`sync.Once` cache (`none` = not yet run; the cached value keeps the
full init outcome, including a modelled panic), and a ghost counter of
how many times `Init` actually executed. -/
structure RState where
  key : String
  data : Bytes
  encLen : Nat
  once : Option (Option (Except Err ReaderInited))
  initRuns : Nat

/-- A reader as constructed by `NewReader` from file bytes plus a key
assigned before the first `Find`: `encryptedDataLength` is the
little-endian word at offset 8 and no init has run. -/
def mkRState (d : Bytes) (key : String) : RState :=
  ⟨key, d, if 12 ≤ d.length then le32 (d.drop 8) else 0, none, 0⟩

/-- Models the full `Reader.Find` including the `sync.Once` lazy
initialization with cached outcome: the first call runs `Init` exactly
once and caches its result; subsequent calls reuse the cache.  Returns
the call's outcome together with the successor state. -/
def findFull (dec : Bytes → Bytes) (decMix : Bytes → Except Err (Int × String))
    (decCols : Bytes → Except Err (List String))
    (s : RState) (ip0 : Bytes) : Option (Except Err FindRes) × RState :=
  match s.once with
  | some c =>
    match c with
    | none => (none, s)
    | some (.error e) => (some (.error e), s)
    | some (.ok r) => (find decMix decCols r ip0, s)
  | none =>
    let c := initReader dec s.key s.data s.encLen
    let s1 : RState := ⟨s.key, s.data, s.encLen, some c, s.initRuns + 1⟩
    match c with
    | none => (none, s1)
    | some (.error e) => (some (.error e), s1)
    | some (.ok r) => (find decMix decCols r ip0, s1)

/-- Runs a sequence of `Find` calls, threading the reader state. -/
def runQueries (dec : Bytes → Bytes) (decMix : Bytes → Except Err (Int × String))
    (decCols : Bytes → Except Err (List String))
    (s : RState) (qs : List Bytes) : RState :=
  qs.foldl (fun st q => (findFull dec decMix decCols st q).2) s

/-- A msgpack decoder stub that always fails; used in concrete inputs
whose control flow never reaches record decoding. -/
def dmFail : Bytes → Except Err (Int × String) := fun _ => .error .decodeError

/-- A msgpack column decoder stub that always fails. -/
def dcFail : Bytes → Except Err (List String) := fun _ => .error .decodeError

/-- An initialized IPv4 reader whose header array is empty. -/
def emptyHeaderReader : ReaderInited := ⟨[], 0, 0, 4, 13, [], [], ⟨[], 0⟩⟩

/-- An initialized IPv6 reader over an all-zero 86-byte image with one
header entry, on which the level-2 search misses for the mapped zero
address. -/
def rC4 : ReaderInited :=
  ⟨List.replicate 86 0, 0, 1, 16, 37, [List.replicate 16 0], [17], ⟨[], 0⟩⟩

/-- A single-entry initialized reader used for the level-1 match
analysis. -/
def oneHeaderReader : ReaderInited :=
  ⟨[], 0, 0, 4, 13, [[7, 0, 0, 0, 0, 0, 0, 0, 0, 0, 0, 0, 0, 0, 0, 0]], [17], ⟨[], 0⟩⟩

/-- A two-entry initialized reader on which an equal match at index 0
keeps a non-trivial bracket. -/
def twoHeaderReader : ReaderInited :=
  ⟨[], 0, 0, 4, 13, [List.replicate 16 0, 1 :: List.replicate 15 0], [17, 30], ⟨[], 0⟩⟩

/-- The claim-side description of the projected geo string: over the
decoded column array with indices from 0, keep position `i` exactly
when bit `i+1` of the selection bitmap is set, substitute `"null"` for
empty strings, append a TAB to each kept value, and concatenate. -/
def geoSpecConcat (sel : Nat) (cols : List String) : String :=
  (cols.enum.filterMap (fun p =>
    if (sel >>> (p.1 + 1)) &&& 1 = 1 then some ((if p.2 = "" then "null" else p.2) ++ "\t")
    else none)).foldr (· ++ ·) ""

/-- A 28-byte file image: 12-byte hyper header declaring a 16-byte
encrypted block, whose (identity-)decrypted plaintext has valid pad 8
and declares `random_bytes_length = 65535`, pushing the Super Part
offset far past the end of the image. -/
def c2Bytes : Bytes :=
  (List.replicate 8 0) ++ [16, 0, 0, 0] ++ [0, 0, 0, 0, 255, 255, 0, 0, 0, 0, 0, 0, 0, 0, 0, 8]

/-! ### Basic lemmas -/

theorem bytesCompare_self (l : Bytes) : bytesCompare l l = .eq := by
  induction l with
  | nil => rfl
  | cons a as ih => simp [bytesCompare, ih]

theorem to16_length (x : Bytes) : (to16 x).length = 0 ∨ (to16 x).length = 16 := by
  unfold to16
  split
  · right; simp [v4InV6Pad]; omega
  · split
    · right; assumption
    · left; rfl

theorem goIPEqual_16_eq (a b : Bytes) (ha : a.length = 16) (hb : b.length = 16)
    (h : goIPEqual a b = true) : a = b := by
  unfold goIPEqual at h
  rw [if_pos (by omega)] at h
  exact eq_of_beq h

/-- On a hit, the level-2 loop returns exactly the `start_ip`/`end_ip`
bytes it compared against, so the break guard `cmpStart ≥ 0 ∧
cmpEnd ≤ 0` transfers to the returned range.  A normal exit returns
the zero tuple, so any result with `dataPtr ≠ 0` came from a hit. -/
theorem searchIndexLoop_hit (d : Bytes) (off ipLen ibl sptr : Nat) (ip : Bytes)
    (fuel : Nat) :
    ∀ l h : Int, ∀ s e : Bytes, ∀ dp dl : Nat,
      searchIndexLoop d off ipLen ibl sptr ip fuel l h = some (s, e, dp, dl) →
      dp ≠ 0 →
      bytesCompare ip s ≠ .lt ∧ bytesCompare ip e ≠ .gt := by
  induction fuel with
  | zero =>
    intro l h s e dp dl hre hdp
    simp only [searchIndexLoop, Option.some.injEq, Prod.mk.injEq] at hre
    exact absurd hre.2.2.1.symm hdp
  | succ n ih =>
    intro l h s e dp dl hre hdp
    simp only [searchIndexLoop] at hre
    by_cases hlh : l ≤ h
    · rw [if_pos hlh] at hre
      cases h1 : goSlice d (off + (sptr + ((l + h) / 2).toNat * ibl))
          (off + (sptr + ((l + h) / 2).toNat * ibl) + ipLen) with
      | none => rw [h1] at hre; cases hre
      | some sB =>
        cases h2 : goSlice d (off + (sptr + ((l + h) / 2).toNat * ibl) + ipLen)
            (off + (sptr + ((l + h) / 2).toNat * ibl) + 2 * ipLen) with
        | none => rw [h1, h2] at hre; cases hre
        | some eB =>
          rw [h1, h2] at hre
          dsimp only [] at hre
          by_cases hcmp : bytesCompare ip sB ≠ .lt ∧ bytesCompare ip eB ≠ .gt
          · rw [if_pos hcmp] at hre
            cases h3 : readU32 d (off + (sptr + ((l + h) / 2).toNat * ibl) + 2 * ipLen) with
            | none => rw [h3] at hre; cases hre
            | some dpv =>
              cases h4 : d.get? (off + (sptr + ((l + h) / 2).toNat * ibl) + 2 * ipLen + 4) with
              | none => rw [h3, h4] at hre; cases hre
              | some dlv =>
                rw [h3, h4] at hre
                injection hre with hre
                rw [Prod.mk.injEq, Prod.mk.injEq, Prod.mk.injEq] at hre
                obtain ⟨hs, he, _, _⟩ := hre
                subst hs
                subst he
                exact hcmp
          · rw [if_neg hcmp] at hre
            by_cases hlt : bytesCompare ip sB = .lt
            · rw [if_pos hlt] at hre
              exact ih _ _ _ _ _ _ hre hdp
            · rw [if_neg hlt] at hre
              exact ih _ _ _ _ _ _ hre hdp
    · rw [if_neg hlh] at hre
      simp only [Option.some.injEq, Prod.mk.injEq] at hre
      exact absurd hre.2.2.1.symm hdp

/-- Lifts the loop hit property to `searchIndex`. -/
theorem searchIndex_hit (r : ReaderInited) (sptr eptr : Nat) (ip : Bytes)
    (s e : Bytes) (dp dl : Nat)
    (h : searchIndex r sptr eptr ip = some (s, e, dp, dl)) (hdp : dp ≠ 0) :
    bytesCompare ip s ≠ .lt ∧ bytesCompare ip e ≠ .gt := by
  unfold searchIndex at h
  by_cases hibl : r.indexBlockLength = 0
  · rw [if_pos hibl] at h; cases h
  · rw [if_neg hibl] at h
    exact searchIndexLoop_hit r.data r.offset r.ipLength r.indexBlockLength sptr ip _ _ _ _ _ _ _ h hdp

/-- Claim C1 — For every query on an initialized reader, if `Find`
returns without error then the returned range brackets the
family-normalized query bytewise: `range.start ≤ ip ≤ range.end` under
`bytes.Compare`.  (Proved for every success path, which subsumes the
claim's restriction to non-synthesized results: on the two synthesized
`DataNotFound` branches the bounds hold as well.) -/
theorem find_ok_range_bounds (dm : Bytes → Except Err (Int × String))
    (dc : Bytes → Except Err (List String)) (r : ReaderInited) (ip0 : Bytes) (res : FindRes)
    (hok : find dm dc r ip0 = some (.ok res)) :
    bytesCompare (normalizeIP r ip0) res.startIP ≠ .lt ∧
    bytesCompare (normalizeIP r ip0) res.endIP ≠ .gt := by
  simp only [find] at hok
  set ip := normalizeIP r ip0 with hipdef
  by_cases h1 : (searchHeader r ip).1 = 0
  · rw [if_pos h1] at hok
    by_cases h2 : (goIPEqual ip ipv4zeroGo || goIPEqual ip ipv6zeroGo) = true
    · rw [if_pos h2] at hok
      simp only [Option.some.injEq, Except.ok.injEq] at hok
      rw [← hok]
      exact ⟨by simp [bytesCompare_self], by simp [bytesCompare_self]⟩
    · rw [if_neg h2] at hok
      simp at hok
  · rw [if_neg h1] at hok
    cases hsi : searchIndex r (searchHeader r ip).1 (searchHeader r ip).2 ip with
    | none => rw [hsi] at hok; cases hok
    | some tup =>
      obtain ⟨sip, eip, dp, dl⟩ := tup
      rw [hsi] at hok
      dsimp only [] at hok
      by_cases hdp : dp = 0
      · rw [if_pos hdp] at hok
        by_cases hsp : (r.dbType = 1 && goIPEqual ip ipv4zeroGo) = true
        · rw [if_pos hsp] at hok
          simp only [Option.some.injEq, Except.ok.injEq] at hok
          rw [← hok]
          simp only [Bool.and_eq_true, decide_eq_true_eq] at hsp
          obtain ⟨hdb, hipeq⟩ := hsp
          have hip16 : ip = to16 ip0 := by
            rw [hipdef]; unfold normalizeIP; rw [if_neg (by omega)]
          rcases to16_length ip0 with hl | hl
          · exfalso
            have : ip = [] := by rw [hip16]; exact List.length_eq_zero.mp hl
            rw [this] at hipeq
            exact absurd hipeq (by decide)
          · have : ip = ipv4zeroGo := by
              apply goIPEqual_16_eq ip ipv4zeroGo _ (by decide) hipeq
              rw [hip16]; exact hl
            rw [this]
            exact ⟨by rw [bytesCompare_self]; decide, by decide⟩
        · rw [if_neg hsp] at hok
          simp at hok
      · rw [if_neg hdp] at hok
        cases hsl : goSlice r.data (r.offset + dp) (r.offset + dp + dl) with
        | none => rw [hsl] at hok; cases hok
        | some payload =>
          rw [hsl] at hok
          dsimp only [] at hok
          cases hpg : parseGeoInfo dm dc r.geo payload with
          | error e => rw [hpg] at hok; simp at hok
          | ok txt =>
            rw [hpg] at hok
            simp only [Option.some.injEq, Except.ok.injEq] at hok
            rw [← hok]
            exact searchIndex_hit r _ _ ip sip eip dp dl hsi hdp

/-- Witness for C1 at a concrete input: the synthesized zero-address
result on an empty-header IPv4 reader satisfies the bound. -/
theorem find_ok_range_bounds_witness :
    find dmFail dcFail emptyHeaderReader [0, 0, 0, 0] =
      some (.ok ⟨[0, 0, 0, 0], [0, 0, 0, 0], tempDataNotFound⟩) ∧
    bytesCompare (normalizeIP emptyHeaderReader [0, 0, 0, 0]) [0, 0, 0, 0] ≠ .lt ∧
    bytesCompare (normalizeIP emptyHeaderReader [0, 0, 0, 0]) [0, 0, 0, 0] ≠ .gt :=
  ⟨rfl, find_ok_range_bounds dmFail dcFail emptyHeaderReader [0, 0, 0, 0]
    ⟨[0, 0, 0, 0], [0, 0, 0, 0], tempDataNotFound⟩ rfl⟩

/-- Claim C3 — When level-1 returns `sptr == 0`: if the normalized
query equals the zero address of its family in the sense of
`net.IP.Equal` (`0.0.0.0` or `::`), `Find` synthesizes the single-point
range `[ip, ip]` with text `"DataNotFound"` and no error; for any other
address it returns `InvalidDatabase`. -/
theorem find_zero_sptr (dm : Bytes → Except Err (Int × String))
    (dc : Bytes → Except Err (List String)) (r : ReaderInited) (ip0 : Bytes)
    (h1 : (searchHeader r (normalizeIP r ip0)).1 = 0) :
    ((goIPEqual (normalizeIP r ip0) ipv4zeroGo || goIPEqual (normalizeIP r ip0) ipv6zeroGo) = true →
      find dm dc r ip0 =
        some (.ok ⟨normalizeIP r ip0, normalizeIP r ip0, tempDataNotFound⟩)) ∧
    ((goIPEqual (normalizeIP r ip0) ipv4zeroGo || goIPEqual (normalizeIP r ip0) ipv6zeroGo) = false →
      find dm dc r ip0 = some (.error .invalidDatabase)) := by
  constructor <;> intro h2 <;> simp only [find] <;> rw [if_pos h1]
  · rw [if_pos h2]
  · rw [if_neg (by simp [h2])]

/-- Witness for C3 at concrete inputs: both the zero-address success
branch and the `InvalidDatabase` branch on an empty-header reader. -/
theorem find_zero_sptr_witness :
    find dmFail dcFail emptyHeaderReader [0, 0, 0, 0] =
      some (.ok ⟨[0, 0, 0, 0], [0, 0, 0, 0], tempDataNotFound⟩) ∧
    find dmFail dcFail emptyHeaderReader [9, 9, 9, 9] = some (.error .invalidDatabase) :=
  ⟨(find_zero_sptr dmFail dcFail emptyHeaderReader [0, 0, 0, 0] rfl).1 rfl,
   (find_zero_sptr dmFail dcFail emptyHeaderReader [9, 9, 9, 9] rfl).2 rfl⟩

/-- Counterexample to C4 as stated: on an IPv6 level-2 miss for the
IPv4 zero query, the synthesized range starts at the IPv4-mapped zero
`::ffff:0.0.0.0` (bytes `0×10,255,255,0,0,0,0`) — not at `::`
(sixteen zero bytes) as the claim's `range = [::, ::ffff:ffff:ffff]`
asserts. -/
theorem find_v6_miss_counterexample :
    find dmFail dcFail rC4 [0, 0, 0, 0] =
      some (.ok ⟨ipv4zeroGo, lastIPv4Go, tempDataNotFound⟩) ∧
    ipv4zeroGo ≠ List.replicate 16 0 :=
  ⟨rfl, by decide⟩

/-- Claim C4 (amended) — On a level-2 miss (`dataPtr == 0`): when
`db_type == IPv6` and the normalized query equals the IPv4 zero
address, `Find` returns the IPv4-mapped range
`[::ffff:0.0.0.0, ::ffff:255.255.255.255]` with text `"DataNotFound"`
and no error; any other level-2 miss returns `InvalidDatabase`. -/
theorem find_index_miss (dm : Bytes → Except Err (Int × String))
    (dc : Bytes → Except Err (List String)) (r : ReaderInited) (ip0 : Bytes)
    (sip eip : Bytes) (dl : Nat)
    (h1 : (searchHeader r (normalizeIP r ip0)).1 ≠ 0)
    (h2 : searchIndex r (searchHeader r (normalizeIP r ip0)).1
      (searchHeader r (normalizeIP r ip0)).2 (normalizeIP r ip0) = some (sip, eip, 0, dl)) :
    ((r.dbType = 1 && goIPEqual (normalizeIP r ip0) ipv4zeroGo) = true →
      find dm dc r ip0 = some (.ok ⟨ipv4zeroGo, lastIPv4Go, tempDataNotFound⟩)) ∧
    ((r.dbType = 1 && goIPEqual (normalizeIP r ip0) ipv4zeroGo) = false →
      find dm dc r ip0 = some (.error .invalidDatabase)) := by
  constructor <;> intro h3 <;> simp only [find] <;> rw [if_neg h1, h2] <;>
    dsimp only [] <;> rw [if_pos rfl]
  · rw [if_pos h3]
  · rw [if_neg (by simp [h3])]

/-- Witness for the amended C4 at the concrete reader `rC4`. -/
theorem find_index_miss_witness :
    find dmFail dcFail rC4 [0, 0, 0, 0] =
      some (.ok ⟨ipv4zeroGo, lastIPv4Go, tempDataNotFound⟩) :=
  (find_index_miss dmFail dcFail rC4 [0, 0, 0, 0]
    (List.replicate 16 0) (List.replicate 16 0) 0 (by decide) (by decide)).1 (by decide)

/-! ### Key-validation failure caching (C5) -/

/-- Claim C5 — `Find` with an empty key returns `KeyRequired`; with a
key whose base64 is malformed it returns `InvalidKey`; in either case
the failure is cached by the init latch: the next `Find` returns the
very same error with the state unchanged (so `Init` is not re-run; the
ghost run counter stays at one). -/
theorem findFull_bad_key (dec : Bytes → Bytes) (dm : Bytes → Except Err (Int × String))
    (dc : Bytes → Except Err (List String)) (d : Bytes) (k : String) (ip ip' : Bytes)
    (hk : k = "" ∨ decodeBase64 k = none) :
    (findFull dec dm dc (mkRState d k) ip).1 =
      some (.error (if k = "" then Err.keyRequired else Err.invalidKey)) ∧
    findFull dec dm dc (findFull dec dm dc (mkRState d k) ip).2 ip' =
      (some (.error (if k = "" then Err.keyRequired else Err.invalidKey)),
        (findFull dec dm dc (mkRState d k) ip).2) ∧
    (findFull dec dm dc (mkRState d k) ip).2.initRuns = 1 := by
  have hv : validateKey k = .error (if k = "" then Err.keyRequired else Err.invalidKey) := by
    unfold validateKey
    by_cases hk0 : k = ""
    · rw [if_pos hk0, if_pos hk0]
    · rcases hk with hk | hk
      · exact absurd hk hk0
      · rw [if_neg hk0, if_neg hk0, hk]
  have hi : initReader dec k d (mkRState d k).encLen =
      some (.error (if k = "" then Err.keyRequired else Err.invalidKey)) := by
    unfold initReader
    rw [hv]
  refine ⟨?_, ?_, ?_⟩ <;>
    simp only [findFull, mkRState] at * <;>
    rw [hi]

/-- Witness for C5: both failure modes concretely, plus the cached
replay on the successor state. -/
theorem findFull_bad_key_witness :
    (findFull id dmFail dcFail (mkRState [] "") [1]).1 = some (.error .keyRequired) ∧
    (findFull id dmFail dcFail (mkRState [] "%%%%") [1]).1 = some (.error .invalidKey) ∧
    findFull id dmFail dcFail (findFull id dmFail dcFail (mkRState [] "%%%%") [1]).2 [2] =
      (some (.error .invalidKey), (findFull id dmFail dcFail (mkRState [] "%%%%") [1]).2) ∧
    (findFull id dmFail dcFail (mkRState [] "%%%%") [1]).2.initRuns = 1 := by
  have h1 := findFull_bad_key id dmFail dcFail [] "" [1] [2] (Or.inl rfl)
  have h2 := findFull_bad_key id dmFail dcFail [] "%%%%" [1] [2] (Or.inr rfl)
  exact ⟨h1.1, h2.1, h2.2.1, h2.2.2⟩

/-! ### The level-1 equal-match behaviour (C6) -/

/-- When the level-1 loop breaks on an equal match it does so with a
non-empty bracket, at position `m = (l+h)/2`, and returns exactly the
pointers the Go code assigns at the break. -/
theorem searchHeaderLoop_break (ips : List Bytes) (ptrs : List Nat) (ip : Bytes)
    (fuel : Nat) :
    ∀ l h l' h' : Int, ∀ s e m : Nat,
      searchHeaderLoop ips ptrs ip fuel l h = (l', h', some (s, e, m)) →
      l' ≤ h' ∧ m = ((l' + h') / 2).toNat ∧
      bytesCompare ip (ips.getD m []) = .eq ∧
      s = (if m > 0 then ptrs.getD (m - 1) 0 else ptrs.getD m 0) ∧
      e = ptrs.getD m 0 := by
  induction fuel with
  | zero =>
    intro l h l' h' s e m hre
    simp [searchHeaderLoop] at hre
  | succ n ih =>
    intro l h l' h' s e m hre
    simp only [searchHeaderLoop] at hre
    by_cases hlh : l ≤ h
    · rw [if_pos hlh] at hre
      cases hc : bytesCompare ip (ips.getD ((l + h) / 2).toNat []) with
      | lt =>
        rw [hc] at hre
        dsimp only [] at hre
        exact ih _ _ _ _ _ _ _ hre
      | gt =>
        rw [hc] at hre
        dsimp only [] at hre
        exact ih _ _ _ _ _ _ _ hre
      | eq =>
        rw [hc] at hre
        dsimp only [] at hre
        rw [Prod.mk.injEq, Prod.mk.injEq, Option.some.injEq, Prod.mk.injEq, Prod.mk.injEq] at hre
        obtain ⟨hl, hh, hs, he, hm⟩ := hre
        subst hl; subst hh; subst hm
        exact ⟨hlh, rfl, hc, hs.symm, he.symm⟩
    · rw [if_neg hlh] at hre
      simp at hre

/-- Claim C6 (amended) — When the level-1 binary search breaks on an
equal match at position `m` and the bracket at the break is not
`l = 0 ∧ h ≤ 0`, `searchHeader` returns
`sptr = header_ptrs[m-1]` (`header_ptrs[m]` when `m = 0`) and
`eptr = header_ptrs[m]`.  (When the bracket at the match is
`l = 0 ∧ h ≤ 0` — always the case for a one-entry header array, and
for any match located at index 0 after the bracket has narrowed —
the post-loop check returns `(0, 0)` instead.) -/
theorem searchHeader_equal_match (r : ReaderInited) (ip : Bytes) (l' h' : Int)
    (s e m : Nat)
    (hn : r.headerIPs.length ≠ 0)
    (hbrk : searchHeaderLoop r.headerIPs r.headerPtrs ip r.headerIPs.length 0
      ((r.headerIPs.length : Int) - 1) = (l', h', some (s, e, m)))
    (hno : ¬(l' = 0 ∧ h' ≤ 0)) :
    searchHeader r ip =
      (if m > 0 then r.headerPtrs.getD (m - 1) 0 else r.headerPtrs.getD m 0,
        r.headerPtrs.getD m 0) ∧
    bytesCompare ip (r.headerIPs.getD m []) = .eq := by
  obtain ⟨hlh, _, hcmp, hs, he⟩ :=
    searchHeaderLoop_break r.headerIPs r.headerPtrs ip _ _ _ _ _ _ _ _ hbrk
  refine ⟨?_, hcmp⟩
  simp only [searchHeader]
  rw [if_neg hn, hbrk]
  dsimp only []
  rw [if_neg hno, if_neg (by omega)]
  rw [hs, he]

/-- Counterexample to C6 as stated: with a one-entry header array and a
query equal to `start_ip[0]`, `searchHeader` returns `(0, 0)` — not
`(header_ptrs[0], header_ptrs[0]) = (17, 17)` as the claim requires —
because the post-loop check `l == 0 && h <= 0` fires even after the
equal-match break. -/
theorem searchHeader_equal_match_counterexample :
    bytesCompare [7, 0, 0, 0, 0, 0, 0, 0, 0, 0, 0, 0, 0, 0, 0, 0]
        (oneHeaderReader.headerIPs.getD 0 []) = .eq ∧
    searchHeader oneHeaderReader [7, 0, 0, 0, 0, 0, 0, 0, 0, 0, 0, 0, 0, 0, 0, 0] = (0, 0) ∧
    (0, 0) ≠ (oneHeaderReader.headerPtrs.getD 0 0, oneHeaderReader.headerPtrs.getD 0 0) :=
  ⟨rfl, rfl, by decide⟩

/-- Witness for the amended C6: a two-entry header with an equal match
at index 0 breaks with bracket `(0, 1)` and returns `(17, 17)`. -/
theorem searchHeader_equal_match_witness :
    searchHeader twoHeaderReader (List.replicate 16 0) = (17, 17) ∧
    bytesCompare (List.replicate 16 0) (twoHeaderReader.headerIPs.getD 0 []) = .eq :=
  searchHeader_equal_match twoHeaderReader (List.replicate 16 0) 0 1 17 17 0
    (by decide) (by decide) (by decide)

/-! ### Queries with no representation in the native family (C10) -/

/-- With an empty (nil) query the level-1 loop never matches: every
stored header IP is a non-empty byte string, so the comparison is
always `lt`, `l` stays `0` and no break occurs. -/
theorem searchHeaderLoop_nil_ip (ips : List Bytes) (ptrs : List Nat)
    (hall : ∀ x ∈ ips, x ≠ []) (fuel : Nat) :
    ∀ h : Int, h < (ips.length : Int) →
      ∃ h', searchHeaderLoop ips ptrs [] fuel 0 h = (0, h', none) := by
  induction fuel with
  | zero => intro h _; exact ⟨h, rfl⟩
  | succ n ih =>
    intro h hh
    simp only [searchHeaderLoop]
    by_cases hlh : (0 : Int) ≤ h
    · rw [if_pos hlh]
      have hm2 : ((0 + h) / 2) ≤ h := by omega
      have hm0 : (0 : Int) ≤ (0 + h) / 2 := by omega
      have hmlt : (((0 + h) / 2).toNat : Int) < (ips.length : Int) := by omega
      have hmem : ips.getD ((0 + h) / 2).toNat [] ∈ ips := by
        have hlt : ((0 + h) / 2).toNat < ips.length := by omega
        rw [List.getD_eq_getElem ips [] hlt]
        exact List.getElem_mem hlt
      have hcmp : bytesCompare [] (ips.getD ((0 + h) / 2).toNat []) = .lt := by
        cases hx : ips.getD ((0 + h) / 2).toNat [] with
        | nil => exact absurd hx (hall _ hmem)
        | cons a as => rfl
      rw [hcmp]
      dsimp only []
      exact ih _ (by omega)
    · rw [if_neg hlh]
      exact ⟨h, rfl⟩

/-- Claim C10 — On an IPv4 database, a query whose `To4()` conversion
is nil (e.g. a non-mapped IPv6 address) compares below every header
entry, `searchHeader` yields `(0, 0)`, the zero-address special case
does not apply to the nil address, and `Find` returns
`InvalidDatabase` (given a non-empty header array of non-empty
entries, as built by `parseHeaderBlocks`). -/
theorem find_nil_normalized (dm : Bytes → Except Err (Int × String))
    (dc : Bytes → Except Err (List String)) (r : ReaderInited) (ip0 : Bytes)
    (hdb : r.dbType = 0) (hnil : to4 ip0 = [])
    (hne : r.headerIPs ≠ []) (hall : ∀ x ∈ r.headerIPs, x ≠ []) :
    find dm dc r ip0 = some (.error .invalidDatabase) := by
  have hip : normalizeIP r ip0 = [] := by
    unfold normalizeIP; rw [if_pos hdb, hnil]
  have hn : r.headerIPs.length ≠ 0 := by
    intro hc; exact hne (List.length_eq_zero.mp hc)
  obtain ⟨h', hloop⟩ := searchHeaderLoop_nil_ip r.headerIPs r.headerPtrs hall
    r.headerIPs.length ((r.headerIPs.length : Int) - 1) (by omega)
  have hsh : searchHeader r [] = (0, 0) := by
    simp only [searchHeader]
    rw [if_neg hn, hloop]
    dsimp only []
    by_cases hc : (0 : Int) = 0 ∧ h' ≤ 0
    · rw [if_pos hc]
    · rw [if_neg hc, if_neg (by omega)]
  simp only [find]
  rw [hip, hsh]
  dsimp only []
  rw [if_pos rfl, if_neg (by decide)]

/-- Witness for C10: a 16-byte query of all ones is not IPv4-mapped,
so `To4` is nil and the one-entry IPv4 reader reports
`InvalidDatabase`. -/
theorem find_nil_normalized_witness :
    find dmFail dcFail oneHeaderReader (List.replicate 16 1) =
      some (.error .invalidDatabase) :=
  find_nil_normalized dmFail dcFail oneHeaderReader (List.replicate 16 1)
    rfl (by decide) (by decide) (by decide)

/-! ### Record decoding (C7) -/

/-- The `ParseGeoInfo` column loop computes exactly the claim-side
filtered concatenation, for any starting index. -/
theorem geoInfoFoldAux_spec (sel : Nat) (cols : List String) :
    ∀ i, geoInfoFoldAux sel i cols =
      ((cols.enumFrom i).filterMap (fun p =>
        if (sel >>> (p.1 + 1)) &&& 1 = 1 then some ((if p.2 = "" then "null" else p.2) ++ "\t")
        else none)).foldr (· ++ ·) "" := by
  induction cols with
  | nil => intro i; rfl
  | cons c rest ih =>
    intro i
    by_cases hb : (sel >>> (i + 1)) % 2 = 1
    · simp [geoInfoFoldAux, List.enumFrom, List.filterMap_cons, Nat.and_one_is_mod,
        hb, ih (i + 1)]
    · simp [geoInfoFoldAux, List.enumFrom, List.filterMap_cons, Nat.and_one_is_mod,
        hb, ih (i + 1)]

theorem geoSpecConcat_eq_fold (sel : Nat) (cols : List String) :
    geoSpecConcat sel cols = geoInfoFoldAux sel 0 cols := by
  rw [geoSpecConcat, geoInfoFoldAux_spec sel cols 0]
  rfl

/-- Claim C7 — For a record payload whose msgpack head decodes to
`(geo_pos_mix_size, other_data)`: when the mix is zero `ParseGeoInfo`
returns `other_data` unchanged; otherwise (with the dictionary slice in
bounds and its string array decoding to `cols`) it returns the
column-projected concatenation — position `i` emitted iff bit `i+1` of
`column_selection` is set, `"null"` for empty strings, a TAB after each
— followed by the unconditional `"\t" + other_data` (also when no
column is selected, since the concatenation is then empty). -/
theorem parseGeoInfo_spec (dm : Bytes → Except Err (Int × String))
    (dc : Bytes → Except Err (List String)) (g : GeoCtx) (payload : Bytes)
    (mix : Int) (other : String)
    (hmix : dm payload = .ok (mix, other)) :
    (mix = 0 → parseGeoInfo dm dc g payload = .ok other) ∧
    (mix ≠ 0 →
      ∀ cols,
        (mix.emod (2 ^ 24)).toNat + ((mix.fdiv (2 ^ 24)).emod 256).toNat ≤ g.data.length →
        dc ((g.data.drop (mix.emod (2 ^ 24)).toNat).take ((mix.fdiv (2 ^ 24)).emod 256).toNat) =
          .ok cols →
        parseGeoInfo dm dc g payload = .ok (geoSpecConcat g.colSel cols ++ "\t" ++ other)) := by
  constructor
  · intro h0
    unfold parseGeoInfo
    rw [hmix]
    dsimp only []
    rw [if_pos h0]
  · intro hne cols hlen hdc
    unfold parseGeoInfo
    rw [hmix]
    dsimp only []
    rw [if_neg hne, if_neg (by omega), hdc, geoSpecConcat_eq_fold]

/-- Witness for C7: a concrete dictionary with selection bitmap `6`
(bits 1 and 2 set) over columns `["A", "", "C"]` yields
`"A\tnull\t" + "\t" + "city"`. -/
theorem parseGeoInfo_spec_witness :
    parseGeoInfo (fun _ => .ok (83886082, "city")) (fun _ => .ok ["A", "", "C"])
      ⟨[10, 11, 12, 13, 14, 15, 16], 6⟩ [] = .ok ("A\tnull\t" ++ "\t" ++ "city") :=
  (parseGeoInfo_spec (fun _ => .ok (83886082, "city")) (fun _ => .ok ["A", "", "C"])
    ⟨[10, 11, 12, 13, 14, 15, 16], 6⟩ [] 83886082 "city" rfl).2
    (by decide) ["A", "", "C"] (by decide) rfl

/-! ### The decrypted-metadata bit split (C8) -/

/-- Claim C8 — `decryptHyperHeader` splits the first little-endian
32-bit word of the decrypted 8-byte plaintext into
`expiration_date` = low 20 bits and `decrypted_client_id` = high 12
bits, takes the second word as `random_bytes_length`, and sets the
base offset to `12 + encrypted_data_length + random_bytes_length`. -/
theorem decryptHyperHeader_split (dec : Bytes → Bytes) (key : String)
    (d ct kb pt : Bytes) (encLen : Nat)
    (hkey : decodeBase64 key = some kb)
    (hct : goSlice d 12 (12 + encLen) = some ct)
    (haes : aesECBDecrypt dec ct kb = .ok pt)
    (hlen : 8 ≤ pt.length)
    (hbytes : ∀ b ∈ pt, b < 256) :
    decryptHyperHeader dec key d encLen =
      some (.ok (hyperFields pt, 12 + encLen + (hyperFields pt).randLen)) ∧
    (hyperFields pt).exp = le32 pt % 2 ^ 20 ∧
    (hyperFields pt).cid = le32 pt / 2 ^ 20 ∧
    (hyperFields pt).cid * 2 ^ 20 + (hyperFields pt).exp = le32 pt ∧
    (hyperFields pt).cid < 2 ^ 12 ∧
    (hyperFields pt).randLen = le32 (pt.drop 4) := by
  have hword : le32 pt < 2 ^ 32 := by
    match pt, hlen with
    | b0 :: b1 :: b2 :: b3 :: rest, _ =>
      have h0 : b0 < 256 := hbytes b0 (by simp)
      have h1 : b1 < 256 := hbytes b1 (by simp)
      have h2 : b2 < 256 := hbytes b2 (by simp)
      have h3 : b3 < 256 := hbytes b3 (by simp)
      simp only [le32]
      omega
  have hexp : (hyperFields pt).exp = le32 pt % 2 ^ 20 := by
    show le32 pt &&& 0xFFFFF = le32 pt % 2 ^ 20
    exact Nat.and_pow_two_sub_one_eq_mod (le32 pt) 20
  have hcid : (hyperFields pt).cid = le32 pt / 2 ^ 20 := by
    show le32 pt >>> 20 = le32 pt / 2 ^ 20
    exact Nat.shiftRight_eq_div_pow (le32 pt) 20
  refine ⟨?_, hexp, hcid, ?_, ?_, rfl⟩
  · unfold decryptHyperHeader
    rw [hkey, hct]
    dsimp only []
    rw [haes]
    dsimp only []
    rw [if_neg (by omega)]
  · rw [hexp, hcid, Nat.mul_comm]
    exact Nat.div_add_mod (le32 pt) (2 ^ 20)
  · rw [hcid]
    omega

/-- Witness for C8 at a concrete plaintext: `dec = id`, ciphertext
with pad byte 8, plaintext `[1,2,3,4,5,0,0,0]`. -/
theorem decryptHyperHeader_split_witness :
    decryptHyperHeader id "AAAAAAAAAAAAAAAAAAAAAA=="
      ((List.replicate 12 0) ++ [1, 2, 3, 4, 5, 0, 0, 0, 0, 0, 0, 0, 0, 0, 0, 8]) 16 =
      some (.ok (⟨64, 197121, 5⟩, 33)) ∧
    (hyperFields [1, 2, 3, 4, 5, 0, 0, 0]).exp = le32 [1, 2, 3, 4, 5, 0, 0, 0] % 2 ^ 20 := by
  have h := decryptHyperHeader_split id "AAAAAAAAAAAAAAAAAAAAAA=="
    ((List.replicate 12 0) ++ [1, 2, 3, 4, 5, 0, 0, 0, 0, 0, 0, 0, 0, 0, 0, 8])
    [1, 2, 3, 4, 5, 0, 0, 0, 0, 0, 0, 0, 0, 0, 0, 8]
    (List.replicate 16 0) [1, 2, 3, 4, 5, 0, 0, 0] 16
    rfl (by decide) rfl (by decide) (by decide)
  exact ⟨h.1, h.2.1⟩

/-! ### Purity and order independence of Find (C9) -/

/-- Once the init latch holds a cached outcome, `Find` leaves the
reader state unchanged. -/
theorem findFull_cached_state (dec : Bytes → Bytes) (dm : Bytes → Except Err (Int × String))
    (dc : Bytes → Except Err (List String)) (s : RState) (q : Bytes)
    (c : Option (Except Err ReaderInited)) (hc : s.once = some c) :
    (findFull dec dm dc s q).2 = s := by
  unfold findFull
  rw [hc]
  cases c with
  | none => rfl
  | some x => cases x <;> rfl

/-- The state reached from a fresh reader by one `Find` call: the init
outcome is computed once and cached, and the run counter becomes 1. -/
theorem findFull_fresh_state (dec : Bytes → Bytes) (dm : Bytes → Except Err (Int × String))
    (dc : Bytes → Except Err (List String)) (d : Bytes) (k : String) (q : Bytes) :
    (findFull dec dm dc (mkRState d k) q).2 =
      ⟨k, d, (mkRState d k).encLen,
        some (initReader dec k d (mkRState d k).encLen), 1⟩ := by
  unfold findFull mkRState
  dsimp only []
  cases initReader dec k d (if 12 ≤ d.length then le32 (d.drop 8) else 0) with
  | none => rfl
  | some x => cases x <;> rfl

/-- Running any query sequence from a state with a cached latch leaves
the state unchanged. -/
theorem runQueries_cached (dec : Bytes → Bytes) (dm : Bytes → Except Err (Int × String))
    (dc : Bytes → Except Err (List String)) (s : RState)
    (c : Option (Except Err ReaderInited)) (hc : s.once = some c) :
    ∀ qs, runQueries dec dm dc s qs = s := by
  intro qs
  induction qs with
  | nil => rfl
  | cons q rest ih =>
    show runQueries dec dm dc (findFull dec dm dc s q).2 rest = s
    rw [findFull_cached_state dec dm dc s q c hc]
    exact ih

/-- Claim C9 — `Find` is a pure function of `(ip, file bytes, key)`:
on readers constructed from the same bytes and key, the result of
`Find(ip)` is the same whether it is the first call or follows any
sequence of other queries (idempotent and order-independent; the only
state transition is the once-only caching of the init outcome, whose
cached value equals the value a fresh run computes). -/
theorem findFull_pure (dec : Bytes → Bytes) (dm : Bytes → Except Err (Int × String))
    (dc : Bytes → Except Err (List String)) (d : Bytes) (k : String)
    (qs : List Bytes) (ip : Bytes) :
    (findFull dec dm dc (runQueries dec dm dc (mkRState d k) qs) ip).1 =
      (findFull dec dm dc (mkRState d k) ip).1 := by
  cases qs with
  | nil => rfl
  | cons q rest =>
    have h1 : runQueries dec dm dc (mkRState d k) (q :: rest) =
        ⟨k, d, (mkRState d k).encLen,
          some (initReader dec k d (mkRState d k).encLen), 1⟩ := by
      show runQueries dec dm dc (findFull dec dm dc (mkRState d k) q).2 rest = _
      rw [findFull_fresh_state dec dm dc d k q]
      exact runQueries_cached dec dm dc _ _ rfl rest
    rw [h1]
    show (findFull dec dm dc ⟨k, d, (mkRState d k).encLen,
      some (initReader dec k d (mkRState d k).encLen), 1⟩ ip).1 =
      (findFull dec dm dc (mkRState d k) ip).1
    unfold findFull mkRState
    dsimp only []

/-! ### Bounds checking of image reads (C2) -/

/-- Counterexample to C2 as stated: with a validly-decoding key and a
corrupted image whose decrypted metadata declares a huge random-padding
length, `Init` (and hence the first `Find`) reaches the unchecked slice
`data[offset : offset+17]` in `parseSuperPart` past the image end — a
Go panic, modelled as `none` — rather than a controlled
`InvalidDatabase`/`DecodeError`. -/
theorem init_oob_counterexample :
    validateKey "AAAAAAAAAAAAAAAAAAAAAA==" = .ok () ∧
    initReader id "AAAAAAAAAAAAAAAAAAAAAA==" c2Bytes 16 = none ∧
    (findFull id dmFail dcFail (mkRState c2Bytes "AAAAAAAAAAAAAAAAAAAAAA==") [1, 2, 3, 4]).1 =
      none :=
  ⟨rfl, rfl, rfl⟩

/-- Claim C2 (amended) — Only the geo-dictionary pointer embedded in a
record is bounds-checked: when the dictionary slice derived from
`geo_pos_mix_size` would exceed the cached dictionary buffer,
`ParseGeoInfo` returns the controlled `InvalidDatabase`.  (The reads in
`parseSuperPart`, `parseHeaderBlocks`, `loadGeoSetting` and
`searchIndex` at offsets derived from file contents are unchecked, so
corrupted file bytes can drive them out of bounds, per the
counterexample.) -/
theorem parseGeoInfo_dict_bounds (dm : Bytes → Except Err (Int × String))
    (dc : Bytes → Except Err (List String)) (g : GeoCtx) (payload : Bytes)
    (mix : Int) (other : String)
    (hmix : dm payload = .ok (mix, other)) (hne : mix ≠ 0)
    (hlen : g.data.length <
      (mix.emod (2 ^ 24)).toNat + ((mix.fdiv (2 ^ 24)).emod 256).toNat) :
    parseGeoInfo dm dc g payload = .error .invalidDatabase := by
  unfold parseGeoInfo
  rw [hmix]
  dsimp only []
  rw [if_neg hne, if_pos hlen]

/-- Witness for the amended C2: a record pointing 5 bytes at offset 2
into an empty dictionary is rejected with `InvalidDatabase`. -/
theorem parseGeoInfo_dict_bounds_witness :
    parseGeoInfo (fun _ => .ok (83886082, "x")) dcFail ⟨[], 0⟩ [] =
      .error .invalidDatabase :=
  parseGeoInfo_dict_bounds (fun _ => .ok (83886082, "x")) dcFail ⟨[], 0⟩ []
    83886082 "x" rfl (by decide) (by decide)

end CzdbSdk
